import Mathlib

/- Verification development for the nile-collector repository: a serverless
   HTTP event collector (API Gateway + Lambda + DynamoDB backend, Next.js
   frontend). Frontend utilities and the SAM route table are embedded from
   the source files; the backend Lambda handlers are not part of the source
   tree, so their behaviour is modelled from the specification where noted. -/

namespace NileCollector

/- ===== frontend/src/utils/tokenService.ts ===== -/

/-- In-memory token storage of the frontend tokenService: the two module-level
variables authToken and deviceToken, each a nullable string. -/
structure TokenState where
  authToken : Option String
  deviceToken : Option String
deriving Repr, DecidableEq

/-- tokenService.getAuthToken: returns the stored auth token. -/
def getAuthToken (s : TokenState) : Option String :=
  s.authToken

/-- tokenService.setAuthToken: stores the given token. -/
def setAuthToken (t : Option String) (s : TokenState) : TokenState :=
  { s with authToken := t }

/-- tokenService.getDeviceToken: returns the stored device token. -/
def getDeviceToken (s : TokenState) : Option String :=
  s.deviceToken

/-- tokenService.setDeviceToken: stores the given device token. -/
def setDeviceToken (t : Option String) (s : TokenState) : TokenState :=
  { s with deviceToken := t }

/-- tokenService.clearTokens: sets both tokens to null. -/
def clearTokens (_s : TokenState) : TokenState :=
  { authToken := none, deviceToken := none }

/- ===== frontend/src/utils/api.ts ===== -/

/-- Boolean substring test, the embedding of JavaScript String.includes. -/
def strContains (s sub : String) : Bool :=
  decide (sub.data <:+: s.data)

/-- The axios request interceptor of api.ts: given the request url, the
Cognito session JWT if one exists, and the client-side HEC device token if
one exists, compute the Authorization header value attached to the request,
or none when no header is attached. -/
def interceptAuthHeader (url : String) (cognitoJwt : Option String)
    (hecToken : Option String) : Option String :=
  if strContains url "/events" || strContains url "/config" then
    match cognitoJwt with
    | some jwt => some ("Bearer " ++ jwt)
    | none => none
  else if strContains url "/services/collector/health" ||
      strContains url "/services/collector/event" then
    match hecToken with
    | some t => some ("Splunk " ++ t)
    | none => none
  else
    none

/-- Path used by apiService.regenerateToken in api.ts. -/
def regenerateTokenPath : String := "/config/token/regenerate"

/-- Path used by apiService.regenerateSplunkHecToken in api.ts, the function
invoked by handleGenerateHecToken in ConfigPanel.tsx. -/
def regenerateSplunkHecTokenPath : String := "/config/splunk-hec-token/regenerate"

/- ===== infrastructure/template.yaml: the NileApi route table ===== -/

/-- HTTP methods appearing in the SAM template route events. -/
inductive Method where
  | get
  | post
  | put
deriving Repr, DecidableEq

/-- One HttpApi route of the NileApi in template.yaml: path, method, whether
the CognitoAuthorizer is attached, and the Lambda handler serving it. -/
structure Route where
  path : String
  method : Method
  cognitoAuth : Bool
  handler : String
deriving Repr, DecidableEq

/-- The complete route table of the NileApi as declared in template.yaml:
the Events sections of CollectEventFunction, GetEventsFunction and
ManageConfigFunction. -/
def nileApiRoutes : List Route :=
  [ ⟨"/services/collector/event", Method.post, false, "collect_event.lambda_handler"⟩,
    ⟨"/services/collector/health", Method.get, false, "collect_event.lambda_handler"⟩,
    ⟨"/events", Method.get, true, "get_events.lambda_handler"⟩,
    ⟨"/events/\x7bevent_id\x7d", Method.get, true, "get_events.lambda_handler"⟩,
    ⟨"/config", Method.get, true, "manage_config.lambda_handler"⟩,
    ⟨"/config", Method.put, true, "manage_config.lambda_handler"⟩,
    ⟨"/config/splunk-hec-token/regenerate", Method.post, true, "manage_config.lambda_handler"⟩ ]

/- ===== backend core (modelled from the spec) =====
   The Python Lambda handlers collect_event.py, get_events.py and
   manage_config.py referenced by template.yaml are not part of the source
   tree; the definitions below are modelled from the specification. -/

/-- Error taxonomy of the spec, section 7. -/
inductive ErrKind where
  | authenticationError
  | validationMalformedBody
  | validationSchemaMismatch
  | conflictTokenGenerationFailed
  | notFoundError
  | storageError
  | internalError
deriving Repr, DecidableEq

/-- JSON values, the payload model for event bodies. -/
inductive Json where
  | str (s : String)
  | num (n : Int)
  | bool (b : Bool)
  | null
  | arr (elems : List Json)
  | obj (fields : List (String × Json))
deriving Repr

/-- A JSON value is a scalar when it is a string, number, boolean or null. -/
def Json.isScalar : Json → Bool
  | .str _ => true
  | .num _ => true
  | .bool _ => true
  | .null => true
  | .arr _ => false
  | .obj _ => false

/-- Whether a JSON value is an object with a top-level field of the given
name. Used as an observer separating distinct JSON values. -/
def Json.hasTopField (name : String) : Json → Bool
  | .obj fields => fields.any (fun f => f.1 == name)
  | _ => false

/-- Look up a top-level field of a JSON object field list. -/
def getField (fields : List (String × Json)) (name : String) : Option Json :=
  (fields.find? (fun f => f.1 == name)).map Prod.snd

/-- Modelled from the spec: Tenant Config record of section 3 (the per-user
item of NileConfigTable, whose writer manage_config.py is missing from the
source tree): the two processing flags, defaulting to false, and the
ingestion token, absent until first generated. -/
structure TenantConfig where
  allow_unvalidated : Bool := false
  summary_mode : Bool := false
  ingestion_token : Option String := none
deriving Repr, DecidableEq

/-- Modelled from the spec: the summary-mode reduction of section 4.2
(collect_event.py is missing from the source tree): for an object payload
keep the discriminator field, the identifier field and the first-level
scalar fields only; a non-object payload is kept as is. -/
def summarize : Json → Json
  | .obj fields =>
      .obj (fields.filter (fun f =>
        f.1 == "eventType" || f.1 == "id" || (f.2).isScalar))
  | j => j

/-- Modelled from the spec: the event_data persisted for a payload, section
3 and 4.2 (collect_event.py is missing from the source tree): the full body,
or the summarized projection when summary_mode is set. -/
def persistedEventData (cfg : TenantConfig) (payload : Json) : Json :=
  if cfg.summary_mode then summarize payload else payload

/-- A raw event body: either it parses to a JSON value or it is not
parseable JSON. -/
inductive RawBody where
  | parsed (j : Json)
  | unparseable (raw : String)

/-- The JSON parse outcome of a raw body. -/
def parseBody : RawBody → Option Json
  | .parsed j => some j
  | .unparseable _ => none

/-- Modelled from the spec: the Event Validator of section 4.2
(collect_event.py is missing from the source tree). A body that does not
parse fails with malformed_body. When allow_unvalidated is set, any parsed
value is accepted, skipping only the schema shape checks. Otherwise the body
must be an object carrying a string discriminator field eventType drawn from
the configured allowed list and an identifier field id; any other shape
fails with schema_mismatch. -/
def validateBody (allowed : List String) (cfg : TenantConfig)
    (body : RawBody) : Except ErrKind Json :=
  match parseBody body with
  | none => .error .validationMalformedBody
  | some j =>
      if cfg.allow_unvalidated then
        .ok j
      else
        match j with
        | .obj fields =>
            match getField fields "eventType" with
            | some (.str et) =>
                if allowed.contains et then
                  match getField fields "id" with
                  | some _ => .ok j
                  | none => .error .validationSchemaMismatch
                else .error .validationSchemaMismatch
            | _ => .error .validationSchemaMismatch
        | _ => .error .validationSchemaMismatch

/-- Event record of section 3: one item of NileEventsTable. -/
structure EventRecord where
  tenant_id : String
  timestamp : Nat
  event_id : String
  event_type : String
  event_data : Json
  created_at : Nat
deriving Repr

/-- Modelled from the spec: get_event of section 4.5 (get_events.py is
missing from the source tree): point lookup restricted to the partition of
the calling tenant; a miss, whether the event does not exist or belongs to
another tenant, fails with NotFoundError. -/
def getEvent (events : List EventRecord) (caller : String)
    (eid : String) : Except ErrKind EventRecord :=
  match events.find? (fun e => e.tenant_id == caller && e.event_id == eid) with
  | some e => .ok e
  | none => .error .notFoundError

/-- Query filters of list_events, section 4.5. -/
structure EventFilters where
  limit : Option Nat := none
  start_time : Option Nat := none
  end_time : Option Nat := none
  event_type : Option String := none
deriving Repr, DecidableEq

/-- Modelled from the spec: the system default result cap applied by
list_events when no limit is given; the spec fixes its existence, not its
value. -/
def defaultLimit : Nat := 50

/-- Whether an event satisfies the optional range and type filters:
start_time and end_time bound the timestamp inclusively and event_type is an
exact match. -/
def matchesFilters (f : EventFilters) (e : EventRecord) : Bool :=
  (match f.start_time with
   | some s => decide (s ≤ e.timestamp)
   | none => true)
  && (match f.end_time with
      | some t => decide (e.timestamp ≤ t)
      | none => true)
  && (match f.event_type with
      | some ty => e.event_type == ty
      | none => true)

/-- Timestamp order on event records. -/
def tsLE (a b : EventRecord) : Prop := a.timestamp ≤ b.timestamp

instance : DecidableRel tsLE := fun a b => Nat.decLe a.timestamp b.timestamp

instance : IsTotal EventRecord tsLE := ⟨fun a b => Nat.le_total a.timestamp b.timestamp⟩

instance : IsTrans EventRecord tsLE := ⟨fun _ _ _ h h2 => Nat.le_trans h h2⟩

/-- Modelled from the spec: list_events of section 4.5 (get_events.py is
missing from the source tree): the events of the calling tenant matching the
filters, ordered by timestamp ascending, capped by the limit or by the
system default when no limit is given. -/
def listEvents (events : List EventRecord) (tenant : String)
    (f : EventFilters) : List EventRecord :=
  ((events.filter (fun e => e.tenant_id == tenant && matchesFilters f e)).insertionSort
    tsLE).take (f.limit.getD defaultLimit)

/-- An inbound HTTP request as seen by the liveness entry point: headers and
body, both ignored by it. -/
structure HttpRequest where
  headers : List (String × String)
  body : String
deriving Repr, DecidableEq

/-- Modelled from the spec: the liveness entry point of section 4.3 served
at GET /services/collector/health (collect_event.py is missing from the
source tree): it performs no authentication and returns a static healthy
indicator for every request. -/
def healthHandler (_req : HttpRequest) : Nat × String :=
  (200, "healthy")

/- ===== Tenant Store and Config Manager (modelled from the spec) ===== -/

/-- The Tenant Store: the NileConfigTable contents as an association list
from tenant id to Tenant Config record. -/
abbrev Store := List (String × TenantConfig)

/-- Whether a store entry currently holds the given ingestion token. -/
def holdsToken (tok : String) (p : String × TenantConfig) : Bool :=
  decide (p.2.ingestion_token = some tok)

/-- Number of store entries holding the given ingestion token. -/
def holdersCount (s : Store) (tok : String) : Nat :=
  s.countP (holdsToken tok)

/-- Whether any store entry holds the given ingestion token: the uniqueness
index probe of the regeneration protocol. -/
def tokenHeld (s : Store) (tok : String) : Bool :=
  s.any (holdsToken tok)

/-- Number of store entries keyed by the given tenant id. -/
def keyCount (s : Store) (t : String) : Nat :=
  s.countP (fun p => decide (p.1 = t))

/-- Whether the store has an entry keyed by the given tenant id. -/
def containsKey (s : Store) (t : String) : Bool :=
  s.any (fun p => decide (p.1 = t))

/-- Keyed read of the Tenant Store. -/
def lookupTenant (s : Store) (t : String) : Option TenantConfig :=
  match s with
  | [] => none
  | p :: ps => if p.1 = t then some p.2 else lookupTenant ps t

/-- Modelled from the spec: the Token Resolver of section 4.1
(collect_event.py is missing from the source tree): query the secondary
index by token value; exactly one match returns the owning tenant id, zero
matches fail with AuthenticationError, several matches are an invariant
violation answered with InternalError. -/
def resolve (s : Store) (tok : String) : Except ErrKind String :=
  match s.filter (holdsToken tok) with
  | [] => .error .authenticationError
  | [p] => .ok p.1
  | _ => .error .internalError

/-- Modelled from the spec: tenant creation at first login, section 3
(manage_config.py is missing from the source tree): a fresh record with
default flags and no ingestion token, a no-op when the tenant exists. -/
def createTenant (s : Store) (t : String) : Store :=
  if containsKey s t then s else (t, ⟨false, false, none⟩) :: s

/-- Apply a partial update of the two processing flags to a config record;
the ingestion token is never mutated by this path. -/
def applyPolicy (au sm : Option Bool) (c : TenantConfig) : TenantConfig :=
  { c with allow_unvalidated := au.getD c.allow_unvalidated,
           summary_mode := sm.getD c.summary_mode }

/-- Modelled from the spec: update_policy of section 4.4 (manage_config.py
is missing from the source tree): partial update of only the two processing
flags on the record of the given tenant. -/
def updatePolicy (s : Store) (t : String) (au sm : Option Bool) : Store :=
  s.map (fun p => if p.1 = t then (p.1, applyPolicy au sm p.2) else p)

/-- Write the candidate token onto the record of the given tenant. -/
def setTokenEntry (t tok : String) (p : String × TenantConfig) :
    String × TenantConfig :=
  if p.1 = t then (p.1, { p.2 with ingestion_token := some tok }) else p

/-- The store after the conditional write of a candidate token onto the
record of the given tenant. -/
def setToken (s : Store) (t tok : String) : Store :=
  s.map (setTokenEntry t tok)

/-- Modelled from the spec: one attempt of regenerate_token, section 4.4
(manage_config.py is missing from the source tree): an atomic conditional
write of the candidate onto the record of the tenant that succeeds only if
no record currently holds that exact token value, enforced through the
uniqueness index; a missing tenant record is an invariant violation. On
success the new raw token is returned together with the updated store. -/
def regenerateToken (s : Store) (t : String) (candidate : String) :
    Except ErrKind (String × Store) :=
  match lookupTenant s t with
  | none => .error .internalError
  | some _ =>
      if tokenHeld s candidate then .error .conflictTokenGenerationFailed
      else .ok (candidate, setToken s t candidate)

/-- Modelled from the spec: the bounded retry loop of regenerate_token,
section 4.4: on a uniqueness conflict retry with the next freshly generated
candidate; exhausting the candidates surfaces ConflictError. -/
def regenerateTokenRetry (s : Store) (t : String) :
    List String → Except ErrKind (String × Store)
  | [] => .error .conflictTokenGenerationFailed
  | c :: cs =>
      match regenerateToken s t c with
      | .ok r => .ok r
      | .error .conflictTokenGenerationFailed => regenerateTokenRetry s t cs
      | .error e => .error e

/-- The reachable states of the Tenant Store: every state produced from the
empty table by an arbitrary interleaving of the atomic Config Manager
operations, each step being one atomic store write as in section 5. Failed
regeneration attempts leave the store unchanged, so they need no step. -/
inductive Reachable : Store → Prop
  | init : Reachable []
  | create (s : Store) (t : String) (h : Reachable s) :
      Reachable (createTenant s t)
  | policy (s : Store) (t : String) (au sm : Option Bool) (h : Reachable s) :
      Reachable (updatePolicy s t au sm)
  | regen (s s' : Store) (t c tok : String) (h : Reachable s)
      (he : regenerateToken s t c = Except.ok (tok, s')) : Reachable s'

/-- The store invariant: tenant ids key at most one record each, and every
token value is held by at most one record. -/
def StoreInv (s : Store) : Prop :=
  (s.map Prod.fst).Nodup ∧ ∀ tok, holdersCount s tok ≤ 1

/- ===== store lemmas ===== -/

theorem keys_setToken (s : Store) (t tok : String) :
    (setToken s t tok).map Prod.fst = s.map Prod.fst := by
  unfold setToken
  rw [List.map_map]
  apply List.map_congr_left
  intro p _
  by_cases h : p.1 = t <;> simp [setTokenEntry, h]

theorem keys_updatePolicy (s : Store) (t : String) (au sm : Option Bool) :
    (updatePolicy s t au sm).map Prod.fst = s.map Prod.fst := by
  unfold updatePolicy
  rw [List.map_map]
  apply List.map_congr_left
  intro p _
  by_cases h : p.1 = t <;> simp [h]

theorem not_mem_keys_of_not_containsKey (s : Store) (t : String)
    (h : containsKey s t = false) : t ∉ s.map Prod.fst := by
  intro hm
  rcases List.mem_map.1 hm with ⟨p, hp, hfst⟩
  have : containsKey s t = true := List.any_eq_true.2 ⟨p, hp, by simp [hfst]⟩
  rw [this] at h
  cases h

theorem holdersCount_createTenant (s : Store) (t tok : String) :
    holdersCount (createTenant s t) tok = holdersCount s tok := by
  unfold createTenant
  by_cases h : containsKey s t = true
  · simp [h]
  · simp only [Bool.not_eq_true] at h
    simp [h, holdersCount, List.countP_cons, holdsToken]

theorem holdersCount_updatePolicy (s : Store) (t : String) (au sm : Option Bool)
    (tok : String) : holdersCount (updatePolicy s t au sm) tok = holdersCount s tok := by
  unfold holdersCount updatePolicy
  rw [List.countP_map]
  apply List.countP_congr
  intro p _
  by_cases h : p.1 = t <;> simp [holdsToken, applyPolicy, h]

theorem holdersCount_setToken_le (s : Store) (t c tok : String) (h : tok ≠ c) :
    holdersCount (setToken s t c) tok ≤ holdersCount s tok := by
  unfold holdersCount setToken
  rw [List.countP_map]
  apply List.countP_mono_left
  intro p _ hp
  by_cases hpt : p.1 = t
  · exfalso
    simp [Function.comp, setTokenEntry, hpt, holdsToken] at hp
    exact h hp.symm
  · simpa [Function.comp, setTokenEntry, hpt] using hp

theorem not_held_of_tokenHeld_false {s : Store} {c : String}
    (h : tokenHeld s c = false) : ∀ p ∈ s, holdsToken c p = false := by
  intro p hp
  by_contra hb
  have hb2 : holdsToken c p = true := by
    cases hv : holdsToken c p
    · exact absurd hv hb
    · rfl
  have : tokenHeld s c = true := List.any_eq_true.2 ⟨p, hp, hb2⟩
  rw [this] at h
  cases h

theorem holdersCount_setToken_self (s : Store) (t c : String)
    (h : tokenHeld s c = false) :
    holdersCount (setToken s t c) c = keyCount s t := by
  unfold holdersCount setToken keyCount
  rw [List.countP_map]
  apply List.countP_congr
  intro p hp
  have hpc : holdsToken c p = false := not_held_of_tokenHeld_false h p hp
  by_cases hpt : p.1 = t
  · simp [Function.comp, setTokenEntry, hpt, holdsToken]
  · simp [Function.comp, setTokenEntry, hpt, holdsToken] at hpc ⊢
    simp [hpc, hpt]

theorem holdersCount_setToken_zero (s : Store) (t c X : String) (hXc : X ≠ c)
    (hkey : ∀ p ∈ s, holdsToken X p = true → p.1 = t) :
    holdersCount (setToken s t c) X = 0 := by
  unfold holdersCount setToken
  rw [List.countP_map]
  apply List.countP_eq_zero.2
  intro p hp hcon
  by_cases hpt : p.1 = t
  · simp [Function.comp, setTokenEntry, hpt, holdsToken] at hcon
    exact hXc hcon.symm
  · exact hpt (hkey p hp (by simpa [Function.comp, setTokenEntry, hpt] using hcon))

theorem keyCount_le_one (s : Store) (h : (s.map Prod.fst).Nodup) (t : String) :
    keyCount s t ≤ 1 := by
  induction s with
  | nil => simp [keyCount]
  | cons p ps ih =>
      simp only [List.map_cons, List.nodup_cons] at h
      unfold keyCount at ih ⊢
      rw [List.countP_cons]
      by_cases hpt : p.1 = t
      · have h0 : ps.countP (fun q => decide (q.1 = t)) = 0 := by
          apply List.countP_eq_zero.2
          intro q hq hdq
          have hq1 : q.1 = t := by simpa using hdq
          have hmem : q.1 ∈ ps.map Prod.fst := List.mem_map_of_mem Prod.fst hq
          rw [hq1, ← hpt] at hmem
          exact h.1 hmem
        simp [hpt, h0]
      · have := ih h.2
        simp [hpt]
        omega

theorem mem_of_lookupTenant {s : Store} {t : String} {cfg : TenantConfig}
    (h : lookupTenant s t = some cfg) : (t, cfg) ∈ s := by
  induction s with
  | nil => cases h
  | cons p ps ih =>
      unfold lookupTenant at h
      by_cases hpt : p.1 = t
      · simp [hpt] at h
        have hp : p = (t, cfg) := by
          obtain ⟨a, b⟩ := p
          simp_all
        rw [← hp]
        exact List.mem_cons_self p ps
      · simp [hpt] at h
        exact List.mem_cons_of_mem p (ih h)

theorem filter_holders_eq (s : Store) (tok T : String) (cfg : TenantConfig)
    (hle : holdersCount s tok ≤ 1) (hm : (T, cfg) ∈ s)
    (hh : holdsToken tok (T, cfg) = true) :
    s.filter (holdsToken tok) = [(T, cfg)] := by
  have hpos : 0 < s.countP (holdsToken tok) :=
    List.countP_pos_iff.2 ⟨(T, cfg), hm, hh⟩
  have h1 : s.countP (holdsToken tok) = 1 := le_antisymm hle hpos
  have hlen : (s.filter (holdsToken tok)).length = 1 := by
    rw [← List.countP_eq_length_filter]
    exact h1
  rcases List.length_eq_one.1 hlen with ⟨a, ha⟩
  have hmf : (T, cfg) ∈ s.filter (holdsToken tok) := List.mem_filter.2 ⟨hm, hh⟩
  rw [ha] at hmf
  simp at hmf
  rw [ha, hmf]

theorem resolve_eq_ok (s : Store) (tok T : String) (cfg : TenantConfig)
    (hle : holdersCount s tok ≤ 1) (hm : (T, cfg) ∈ s)
    (hh : holdsToken tok (T, cfg) = true) :
    resolve s tok = Except.ok T := by
  unfold resolve
  rw [filter_holders_eq s tok T cfg hle hm hh]

theorem resolve_eq_authErr (s : Store) (tok : String)
    (h : holdersCount s tok = 0) :
    resolve s tok = Except.error ErrKind.authenticationError := by
  have hnil : s.filter (holdsToken tok) = [] := by
    rw [← List.length_eq_zero, ← List.countP_eq_length_filter]
    exact h
  unfold resolve
  rw [hnil]

theorem regen_ok_inv {s : Store} {t c tok : String} {s' : Store}
    (he : regenerateToken s t c = Except.ok (tok, s')) :
    tok = c ∧ s' = setToken s t c ∧ tokenHeld s c = false ∧
      ∃ cfg, lookupTenant s t = some cfg := by
  unfold regenerateToken at he
  cases hl : lookupTenant s t with
  | none => rw [hl] at he; cases he
  | some cfg =>
      rw [hl] at he
      by_cases ht : tokenHeld s c = true
      · simp [ht] at he
      · simp only [Bool.not_eq_true] at ht
        simp [ht] at he
        exact ⟨he.1.symm, he.2.symm, ht, ⟨cfg, rfl⟩⟩

theorem storeInv_createTenant (s : Store) (t : String) (h : StoreInv s) :
    StoreInv (createTenant s t) := by
  obtain ⟨hk, hh⟩ := h
  by_cases hc : containsKey s t = true
  · constructor
    · simpa [createTenant, hc] using hk
    · intro tok
      rw [holdersCount_createTenant]
      exact hh tok
  · simp only [Bool.not_eq_true] at hc
    constructor
    · simp only [createTenant, hc, Bool.false_eq_true, if_false, List.map_cons,
        List.nodup_cons]
      exact ⟨not_mem_keys_of_not_containsKey s t hc, hk⟩
    · intro tok
      rw [holdersCount_createTenant]
      exact hh tok

theorem storeInv_updatePolicy (s : Store) (t : String) (au sm : Option Bool)
    (h : StoreInv s) : StoreInv (updatePolicy s t au sm) := by
  constructor
  · rw [keys_updatePolicy]
    exact h.1
  · intro tok
    rw [holdersCount_updatePolicy]
    exact h.2 tok

theorem storeInv_regen {s s' : Store} {t c tok : String} (hinv : StoreInv s)
    (he : regenerateToken s t c = Except.ok (tok, s')) : StoreInv s' := by
  obtain ⟨htok, hs', hfree, _⟩ := regen_ok_inv he
  subst hs'
  refine ⟨?_, ?_⟩
  · rw [keys_setToken]
    exact hinv.1
  · intro tk
    by_cases hc : tk = c
    · subst hc
      rw [holdersCount_setToken_self s t tk hfree]
      exact keyCount_le_one s hinv.1 t
    · exact le_trans (holdersCount_setToken_le s t c tk hc) (hinv.2 tk)

theorem storeInv_of_reachable {s : Store} (h : Reachable s) : StoreInv s := by
  induction h with
  | init => exact ⟨List.nodup_nil, fun tok => by simp [holdersCount]⟩
  | create s t _ ih => exact storeInv_createTenant s t ih
  | policy s t au sm _ ih => exact storeInv_updatePolicy s t au sm ih
  | regen s s' t c tok _ he ih => exact storeInv_regen ih he

/- ===== claim theorems ===== -/

/-- C1: in every reachable state of the Tenant Store, each ingestion-token
value is held by at most one Tenant Config record, and there is no token
value resolving simultaneously to two distinct tenants; every operation,
including interleaved token regenerations by different tenants, preserves
this. -/
theorem c1_token_uniqueness (s : Store) (h : Reachable s) :
    (∀ tok, holdersCount s tok ≤ 1) ∧
    (∀ tok T1 T2, resolve s tok = Except.ok T1 → resolve s tok = Except.ok T2 →
      T1 = T2) := by
  refine ⟨(storeInv_of_reachable h).2, ?_⟩
  intro tok T1 T2 h1 h2
  rw [h1] at h2
  exact Except.ok.inj h2

/-- Witness for C1 at a concrete reachable store holding one token. -/
theorem c1_token_uniqueness_witness :
    holdersCount [("T1", (⟨false, false, some "X1"⟩ : TenantConfig))] "X1" ≤ 1 :=
  (c1_token_uniqueness [("T1", (⟨false, false, some "X1"⟩ : TenantConfig))]
      (Reachable.regen (createTenant [] "T1")
        [("T1", (⟨false, false, some "X1"⟩ : TenantConfig))] "T1" "X1" "X1"
        (Reachable.create [] "T1" Reachable.init) rfl)).1 "X1"

/-- C2: in a reachable store, a tenant whose current ingestion token is X is
returned by resolve on X; and after a successful regenerate_token producing
a new token, resolve on X fails with AuthenticationError while resolve on
the new token returns the tenant — the old token is invalid immediately on
success. -/
theorem c2_resolve_token_rotation (s : Store) (T : String) (cfg : TenantConfig)
    (X : String) (hr : Reachable s) (hl : lookupTenant s T = some cfg)
    (hX : cfg.ingestion_token = some X) :
    resolve s X = Except.ok T ∧
    ∀ c tok s', regenerateToken s T c = Except.ok (tok, s') →
      resolve s' X = Except.error ErrKind.authenticationError ∧
      resolve s' tok = Except.ok T := by
  have hinv := storeInv_of_reachable hr
  have hm : (T, cfg) ∈ s := mem_of_lookupTenant hl
  have hh : holdsToken X (T, cfg) = true := by simp [holdsToken, hX]
  refine ⟨resolve_eq_ok s X T cfg (hinv.2 X) hm hh, ?_⟩
  intro c tok s' he
  obtain ⟨htok, hs', hfree, _⟩ := regen_ok_inv he
  subst hs'
  subst htok
  have hXc : X ≠ tok := by
    intro hxc
    subst hxc
    have hheld : tokenHeld s X = true := List.any_eq_true.2 ⟨(T, cfg), hm, hh⟩
    rw [hheld] at hfree
    cases hfree
  constructor
  · apply resolve_eq_authErr
    have hkeyuniq : ∀ p ∈ s, holdsToken X p = true → p.1 = T := by
      intro p hp hpX
      have hfil := filter_holders_eq s X T cfg (hinv.2 X) hm hh
      have hmemf : p ∈ s.filter (holdsToken X) := List.mem_filter.2 ⟨hp, hpX⟩
      rw [hfil] at hmemf
      simp at hmemf
      rw [hmemf]
    exact holdersCount_setToken_zero s T tok X hXc hkeyuniq
  · have hmem2 : (T, { cfg with ingestion_token := some tok }) ∈ setToken s T tok := by
      have hmapped := List.mem_map_of_mem (setTokenEntry T tok) hm
      simpa [setTokenEntry, setToken] using hmapped
    apply resolve_eq_ok (setToken s T tok) tok T { cfg with ingestion_token := some tok }
    · rw [holdersCount_setToken_self s T tok hfree]
      exact keyCount_le_one s hinv.1 T
    · exact hmem2
    · simp [holdsToken]

/-- Witness for C2 at a concrete reachable store: token X1 resolves to the
tenant, and after regeneration to Y1 the old token fails while Y1 resolves. -/
theorem c2_resolve_token_rotation_witness :
    resolve [("T1", (⟨false, false, some "X1"⟩ : TenantConfig))] "X1" =
      Except.ok "T1" ∧
    resolve [("T1", (⟨false, false, some "Y1"⟩ : TenantConfig))] "X1" =
      Except.error ErrKind.authenticationError ∧
    resolve [("T1", (⟨false, false, some "Y1"⟩ : TenantConfig))] "Y1" =
      Except.ok "T1" := by
  have h := c2_resolve_token_rotation
      [("T1", (⟨false, false, some "X1"⟩ : TenantConfig))] "T1"
      (⟨false, false, some "X1"⟩ : TenantConfig) "X1"
      (Reachable.regen (createTenant [] "T1")
        [("T1", (⟨false, false, some "X1"⟩ : TenantConfig))] "T1" "X1" "X1"
        (Reachable.create [] "T1" Reachable.init) rfl) rfl rfl
  have h2 := h.2 "Y1" "Y1"
      [("T1", (⟨false, false, some "Y1"⟩ : TenantConfig))] rfl
  exact ⟨h.1, h2.1, h2.2⟩

theorem lookupTenant_setToken (s : Store) (t c : String) :
    lookupTenant (setToken s t c) t =
      (lookupTenant s t).map (fun cfg => { cfg with ingestion_token := some c }) := by
  induction s with
  | nil => rfl
  | cons p ps ih =>
      unfold setToken at ih ⊢
      simp only [List.map_cons]
      unfold lookupTenant
      by_cases hpt : p.1 = t
      · simp [setTokenEntry, hpt]
      · simp [setTokenEntry, hpt, ih]

/-- C3 counterexample: the NileApi route table of template.yaml has no route
whose path is /config/token/regenerate, so the token-rotation operation is
not exposed at that path. -/
theorem c3_no_config_token_regenerate_route :
    ¬ ∃ r ∈ nileApiRoutes, r.path = regenerateTokenPath := by
  decide

/-- C3 amended: the token-rotation operation is exposed as POST
/config/splunk-hec-token/regenerate behind the Cognito authorizer, the path
targeted by apiService.regenerateSplunkHecToken, and a successful
regeneration returns the new raw ingestion token, which is exactly the
token then held on the tenant record. -/
theorem c3_regenerate_route_amended :
    (∃ r ∈ nileApiRoutes, r.path = regenerateSplunkHecTokenPath ∧
      r.method = Method.post ∧ r.cognitoAuth = true) ∧
    ∀ s t c tok s', regenerateToken s t c = Except.ok (tok, s') →
      tok = c ∧ lookupTenant s' t = (lookupTenant s t).map
        (fun cfg => { cfg with ingestion_token := some tok }) := by
  constructor
  · decide
  · intro s t c tok s' he
    obtain ⟨htok, hs', _, _⟩ := regen_ok_inv he
    subst hs'
    subst htok
    exact ⟨rfl, lookupTenant_setToken s t tok⟩

/-- Witness for C3 amended at a concrete store: regenerating onto tenant T1
returns Z1 and stores Z1 on the T1 record. -/
theorem c3_regenerate_route_amended_witness :
    "Z1" = "Z1" ∧
    lookupTenant [("T1", (⟨false, false, some "Z1"⟩ : TenantConfig))] "T1" =
      (lookupTenant [("T1", (⟨false, false, none⟩ : TenantConfig))] "T1").map
        (fun cfg => { cfg with ingestion_token := some "Z1" }) :=
  c3_regenerate_route_amended.2 [("T1", (⟨false, false, none⟩ : TenantConfig))]
    "T1" "Z1" "Z1" [("T1", (⟨false, false, some "Z1"⟩ : TenantConfig))] rfl

/-- The nested example payload of the spec: field a mapped to 1 and field b
mapped to an object with field c mapped to 2. -/
def nestedPayload : Json :=
  .obj [("a", .num 1), ("b", .obj [("c", .num 2)])]

/-- The reduced projection of the nested example payload: only the
first-level scalar field a survives. -/
def reducedPayload : Json :=
  .obj [("a", .num 1)]

/-- C4: with summary_mode false the persisted event_data is the submitted
payload itself; with summary_mode true it is the deterministic reduced
projection keeping only the discriminator, identifier and first-level
scalar fields, each taken from the payload; in particular the nested
example payload is reduced to its projection, which differs from the
original nested structure. -/
theorem c4_summary_mode_projection (cfg : TenantConfig) (payload : Json) :
    (cfg.summary_mode = false → persistedEventData cfg payload = payload) ∧
    (cfg.summary_mode = true → persistedEventData cfg payload = summarize payload) ∧
    (∀ fields, ∃ fs, summarize (Json.obj fields) = Json.obj fs ∧
      ∀ f ∈ fs, (f.1 = "eventType" ∨ f.1 = "id" ∨ (f.2).isScalar = true) ∧
        f ∈ fields) ∧
    summarize nestedPayload = reducedPayload ∧
    reducedPayload ≠ nestedPayload := by
  refine ⟨?_, ?_, ?_, rfl, ?_⟩
  · intro h
    simp [persistedEventData, h]
  · intro h
    simp [persistedEventData, h]
  · intro fields
    refine ⟨_, rfl, ?_⟩
    intro f hf
    have hmf := List.mem_filter.1 hf
    refine ⟨?_, hmf.1⟩
    have hb := hmf.2
    simp only [Bool.or_eq_true, beq_iff_eq] at hb
    rcases hb with (h1 | h2) | h3
    · exact Or.inl h1
    · exact Or.inr (Or.inl h2)
    · exact Or.inr (Or.inr h3)
  · intro h
    have hob := congrArg (Json.hasTopField "b") h
    rw [show Json.hasTopField "b" reducedPayload = false from rfl,
        show Json.hasTopField "b" nestedPayload = true from rfl] at hob
    cases hob

/-- Witness for C4: summary mode on the nested example payload persists the
reduced projection. -/
theorem c4_summary_mode_projection_witness :
    persistedEventData (⟨false, true, none⟩ : TenantConfig) nestedPayload =
      summarize nestedPayload :=
  (c4_summary_mode_projection (⟨false, true, none⟩ : TenantConfig)
    nestedPayload).2.1 rfl

/-- C5: with allow_unvalidated set, the validator accepts every body that
parses to a JSON object, and every body that is not parseable JSON still
fails with ValidationError malformed_body — the bypass skips only the
schema shape checks, never basic syntactic well-formedness. -/
theorem c5_allow_unvalidated_bypass (allowed : List String) (cfg : TenantConfig)
    (body : RawBody) (h : cfg.allow_unvalidated = true) :
    (∀ fields, parseBody body = some (Json.obj fields) →
      validateBody allowed cfg body = Except.ok (Json.obj fields)) ∧
    (parseBody body = none →
      validateBody allowed cfg body = Except.error ErrKind.validationMalformedBody) := by
  constructor
  · intro fields hp
    simp [validateBody, hp, h]
  · intro hp
    simp [validateBody, hp]

/-- Witness for C5: an empty JSON object is accepted under the bypass while
an unparseable body is rejected as malformed. -/
theorem c5_allow_unvalidated_bypass_witness :
    validateBody [] (⟨true, false, none⟩ : TenantConfig)
      (RawBody.parsed (Json.obj [])) = Except.ok (Json.obj []) ∧
    validateBody [] (⟨true, false, none⟩ : TenantConfig)
      (RawBody.unparseable "not json") =
      Except.error ErrKind.validationMalformedBody := by
  have h1 := (c5_allow_unvalidated_bypass [] (⟨true, false, none⟩ : TenantConfig)
      (RawBody.parsed (Json.obj [])) rfl).1 [] rfl
  have h2 := (c5_allow_unvalidated_bypass [] (⟨true, false, none⟩ : TenantConfig)
      (RawBody.unparseable "not json") rfl).2 rfl
  exact ⟨h1, h2⟩

/-- C6: for every event id and caller tenant B, get_event fails with
NotFoundError both when no event with that id exists and when every event
with that id belongs to a different tenant; the two failure results are the
same value, so the caller cannot distinguish the cases. -/
theorem c6_no_cross_tenant_leak (events : List EventRecord) (B eid : String) :
    ((∀ e ∈ events, e.event_id ≠ eid) →
      getEvent events B eid = Except.error ErrKind.notFoundError) ∧
    ((∀ e ∈ events, e.event_id = eid → e.tenant_id ≠ B) →
      getEvent events B eid = Except.error ErrKind.notFoundError) := by
  have hgen : (∀ e ∈ events, ¬(e.tenant_id == B && e.event_id == eid) = true) →
      getEvent events B eid = Except.error ErrKind.notFoundError := by
    intro h
    unfold getEvent
    rw [List.find?_eq_none.2 h]
  constructor
  · intro h
    apply hgen
    intro e he hb
    simp only [Bool.and_eq_true, beq_iff_eq] at hb
    exact h e he hb.2
  · intro h
    apply hgen
    intro e he hb
    simp only [Bool.and_eq_true, beq_iff_eq] at hb
    exact h e he hb.2 hb.1

/-- Witness for C6: an event of tenant A requested under the identity of
tenant B yields NotFoundError. -/
theorem c6_no_cross_tenant_leak_witness :
    getEvent [⟨"A", 5, "e1", "audit_trail", Json.obj [], 6⟩] "B" "e1" =
      Except.error ErrKind.notFoundError :=
  (c6_no_cross_tenant_leak [⟨"A", 5, "e1", "audit_trail", Json.obj [], 6⟩]
      "B" "e1").2
    (by
      intro e he hid
      rw [List.mem_singleton] at he
      subst he
      decide)

/-- C7: list_events returns only events of the requesting tenant, every
returned event satisfies the inclusive start and end bounds and matches the
event_type filter exactly when given, the result is ordered by timestamp
ascending, and its length is capped by the limit or by the system default
when no limit is given. -/
theorem c7_list_events (events : List EventRecord) (tenant : String)
    (f : EventFilters) :
    (∀ e ∈ listEvents events tenant f,
      e.tenant_id = tenant ∧
      (∀ s, f.start_time = some s → s ≤ e.timestamp) ∧
      (∀ u, f.end_time = some u → e.timestamp ≤ u) ∧
      (∀ ty, f.event_type = some ty → e.event_type = ty)) ∧
    List.Pairwise tsLE (listEvents events tenant f) ∧
    (listEvents events tenant f).length ≤ f.limit.getD defaultLimit := by
  refine ⟨?_, ?_, ?_⟩
  · intro e he
    unfold listEvents at he
    have hmem : e ∈ (events.filter
        (fun e => e.tenant_id == tenant && matchesFilters f e)).insertionSort tsLE :=
      List.mem_of_mem_take he
    have hmem2 : e ∈ events.filter
        (fun e => e.tenant_id == tenant && matchesFilters f e) :=
      (List.perm_insertionSort tsLE _).mem_iff.1 hmem
    have hp := (List.mem_filter.1 hmem2).2
    simp only [Bool.and_eq_true, beq_iff_eq] at hp
    obtain ⟨ht, hm⟩ := hp
    unfold matchesFilters at hm
    simp only [Bool.and_eq_true] at hm
    obtain ⟨⟨hA, hB⟩, hC⟩ := hm
    refine ⟨ht, ?_, ?_, ?_⟩
    · intro s hs
      rw [hs] at hA
      exact of_decide_eq_true hA
    · intro u hu
      rw [hu] at hB
      exact of_decide_eq_true hB
    · intro ty hty
      rw [hty] at hC
      exact eq_of_beq hC
  · unfold listEvents
    exact List.Pairwise.sublist (List.take_sublist _ _)
      (List.sorted_insertionSort tsLE _)
  · unfold listEvents
    rw [List.length_take]
    exact Nat.min_le_left _ _

/-- Witness for C7: a store with one matching event returns it, and it
belongs to the requesting tenant. -/
theorem c7_list_events_witness :
    (⟨"T1", 3, "e1", "audit_trail", Json.null, 4⟩ : EventRecord).tenant_id = "T1" :=
  ((c7_list_events [⟨"T1", 3, "e1", "audit_trail", Json.null, 4⟩] "T1"
      ⟨some 10, some 1, some 5, some "audit_trail"⟩).1
    ⟨"T1", 3, "e1", "audit_trail", Json.null, 4⟩
    (List.mem_singleton_self _)).1

/-- C8: the liveness entry point GET /services/collector/health is declared
without the Cognito authorizer and its handler returns the static healthy
indicator for every request, whatever headers or token are presented. -/
theorem c8_health_no_auth :
    (∀ req : HttpRequest, healthHandler req = (200, "healthy")) ∧
    (⟨"/services/collector/health", Method.get, false,
        "collect_event.lambda_handler"⟩ : Route) ∈ nileApiRoutes ∧
    (∀ r ∈ nileApiRoutes, r.path = "/services/collector/health" →
      r.cognitoAuth = false) := by
  exact ⟨fun _ => rfl, by decide, by decide⟩

/-- Witness for C8: a request presenting an authorization header still gets
the static healthy indicator, and the health route carries no authorizer. -/
theorem c8_health_no_auth_witness :
    healthHandler ⟨[("Authorization", "Splunk sometoken")], ""⟩ = (200, "healthy") ∧
    (⟨"/services/collector/health", Method.get, false,
        "collect_event.lambda_handler"⟩ : Route).cognitoAuth = false :=
  ⟨c8_health_no_auth.1 ⟨[("Authorization", "Splunk sometoken")], ""⟩,
   c8_health_no_auth.2.2
     ⟨"/services/collector/health", Method.get, false,
       "collect_event.lambda_handler"⟩ (by decide) rfl⟩

/-- C9: for the in-memory tokenService, getAuthToken after setAuthToken
returns the token just set, likewise getDeviceToken after setDeviceToken,
and after clearTokens both getters return null. -/
theorem c9_tokenService_roundtrip (t : String) (s : TokenState) :
    getAuthToken (setAuthToken (some t) s) = some t ∧
    getDeviceToken (setDeviceToken (some t) s) = some t ∧
    getAuthToken (clearTokens s) = none ∧
    getDeviceToken (clearTokens s) = none :=
  ⟨rfl, rfl, rfl, rfl⟩

/-- C10: the request interceptor sends every request whose url contains
/events or /config with a Bearer Cognito JWT header when a session token
exists and with no authorization header otherwise; the Splunk scheme is
attached exactly to urls matching neither substring but containing the
collector health or event path, and the regenerate path of the HEC token
contains /config, so it is covered by the Bearer branch. -/
theorem c10_interceptor (url : String) (jwt hec : Option String) :
    ((strContains url "/events" || strContains url "/config") = true →
      interceptAuthHeader url jwt hec = jwt.map (fun j => "Bearer " ++ j)) ∧
    ((strContains url "/events" || strContains url "/config") = false →
      ((strContains url "/services/collector/health" ||
          strContains url "/services/collector/event") = true →
        interceptAuthHeader url jwt hec = hec.map (fun t => "Splunk " ++ t)) ∧
      ((strContains url "/services/collector/health" ||
          strContains url "/services/collector/event") = false →
        interceptAuthHeader url jwt hec = none)) ∧
    strContains regenerateSplunkHecTokenPath "/config" = true := by
  refine ⟨?_, ?_, by decide⟩
  · intro h
    cases jwt with
    | none => simp [interceptAuthHeader, h]
    | some j => simp [interceptAuthHeader, h]
  · intro h
    constructor
    · intro h2
      cases hec with
      | none => simp [interceptAuthHeader, h, h2]
      | some t => simp [interceptAuthHeader, h, h2]
    · intro h2
      simp [interceptAuthHeader, h, h2]

/-- Witness for C10: the HEC regenerate path gets the Bearer header, the
collector health path gets the Splunk header, and an unrelated path gets no
authorization header. -/
theorem c10_interceptor_witness :
    interceptAuthHeader "/config/splunk-hec-token/regenerate" (some "jwt1")
      (some "hec1") = some ("Bearer " ++ "jwt1") ∧
    interceptAuthHeader "/services/collector/health" none (some "hec1") =
      some ("Splunk " ++ "hec1") ∧
    interceptAuthHeader "/other" (some "jwt1") (some "hec1") = none := by
  refine ⟨?_, ?_, ?_⟩
  · exact (c10_interceptor "/config/splunk-hec-token/regenerate" (some "jwt1")
      (some "hec1")).1 (by decide)
  · exact ((c10_interceptor "/services/collector/health" none
      (some "hec1")).2.1 (by decide)).1 (by decide)
  · exact ((c10_interceptor "/other" (some "jwt1") (some "hec1")).2.1
      (by decide)).2 (by decide)

end NileCollector
